import Mathlib

/-!
Shallow embedding of `src/src/manager_multi_scale.py`: the training manager
(`Manager.eval`, `Manager.save_model`, `Manager.load_model`, `Manager.train`)
and the multi-optimizer container (`Optimizers.add`, `Optimizers.update_lr`).

External collaborators (the PyTorch model, torchnet's `ClassErrorMeter`, the
data loaders, the filesystem) are modelled explicitly: the model is a record of
(mode, device, parameter-state id); an evaluation batch carries the scores the
model produced for it, and a failing batch is an `Except.error` element of the
stream, modelling an exception raised while producing or processing that batch;
file writes take an explicit success flag. Learning rates use `ℚ`; optimizer
objects are identified by natural-number handles whose mutable learning-rate
state lives in a heap `ℕ → ℚ`, mirroring Python reference semantics.
-/

namespace RACNN

/-- Execution mode of the PyTorch model: `model.train()` vs `model.eval()`. -/
inductive Mode where
  | train : Mode
  | eval : Mode
deriving DecidableEq, Repr

/-- Memory/device placement of the model: `model.cpu()` vs `model.cuda()`. -/
inductive Device where
  | cpu : Device
  | gpu : Device
deriving DecidableEq, Repr

/-- The argparse `args` object: the fields `manager_multi_scale.py` reads. -/
structure Args where
  cuda : Bool
  train_path : String
  test_path : String
  batch_size : ℕ
  lr_decay_factor : ℚ
deriving DecidableEq, Repr

/-- The externally supplied PyTorch model, as the manager observes it:
execution mode, device placement, and an opaque parameter-state id
(the value `state_dict()` serializes / `load_state_dict` replaces). -/
structure ModelState where
  mode : Mode
  device : Device
  params : ℕ
deriving DecidableEq, Repr

/-- A configured data loader, as built in `Manager.__init__` by
`dataset.train_loader_cubs` / `dataset.test_loader_cubs`: the loader-building
module is an external collaborator, so the loader is recorded by its
configuration. -/
structure Loader where
  path : String
  batch_size : ℕ
  pin_memory : Bool
  flipcrop : Bool
deriving DecidableEq, Repr

/-- The loss criterion set up in `Manager.__init__`. -/
inductive Criterion where
  | crossEntropyLoss : Criterion
deriving DecidableEq, Repr

/-- The fields `Manager.__init__` stores on `self`. -/
structure ManagerState where
  args : Args
  cuda : Bool
  model : ModelState
  train_data_loader : Loader
  test_data_loader : Loader
  criterion : Criterion
deriving DecidableEq, Repr

/-- `Manager.__init__(args, model)`: stores args, `args.cuda`, the model,
builds the two data loaders from the paths and batch size (with
`pin_memory=args.cuda, flipcrop=True`), and sets the cross-entropy criterion. -/
def Manager.init (args : Args) (model : ModelState) : ManagerState :=
  { args := args
    cuda := args.cuda
    model := model
    train_data_loader := ⟨args.train_path, args.batch_size, args.cuda, true⟩
    test_data_loader := ⟨args.test_path, args.batch_size, args.cuda, true⟩
    criterion := Criterion.crossEntropyLoss }

/-- The checkpoint dictionary built in `Manager.save_model`. -/
structure Ckpt where
  args : Args
  epoch : ℕ
  accuracy : ℚ
  errors : List ℚ
  state_dict : ℕ
deriving DecidableEq, Repr

/-- `Manager.save_model(epoch, best_accuracy, errors, savename)`:
moves the model to cpu, builds the ckpt dict from the cpu-resident state,
moves the model back to gpu when `self.cuda`, and only then calls
`torch.save`.  The filesystem is external, so the outcome of `torch.save`
is an explicit `writeOk` flag; a failed write raises after the device has
already been restored.  Returns the updated manager state together with the
write outcome (the saved ckpt on success, the propagated error otherwise). -/
def Manager.save_model (m : ManagerState) (epoch : ℕ) (best_accuracy : ℚ)
    (errors : List ℚ) (writeOk : Bool) : ManagerState × Except String Ckpt :=
  let m1 : ManagerState := { m with model := { m.model with device := Device.cpu } }
  let ckpt : Ckpt := ⟨m1.args, epoch, best_accuracy, errors, m1.model.params⟩
  let m2 : ManagerState :=
    if m1.cuda then { m1 with model := { m1.model with device := Device.gpu } } else m1
  if writeOk then (m2, Except.ok ckpt) else (m2, Except.error "IOError")

/-- `Manager.load_model(savename)`: loads the ckpt, calls
`self.model.load_state_dict(ckpt[state_dict])` and sets
`self.args = ckpt[args]`.  Nothing else on `self` is assigned. -/
def Manager.load_model (m : ManagerState) (ckpt : Ckpt) : ManagerState :=
  { m with
      model := { m.model with params := ckpt.state_dict }
      args := ckpt.args }

end RACNN

namespace RACNN

/-! ### Evaluation (`Manager.eval`) -/

/-- One evaluation batch after the model's forward pass: `width` is
`outputs.size(1)` (the class count of the score matrix), `outputs` the
flattened per-sample score rows, `labels` the flattened targets. -/
structure Batch where
  width : ℕ
  outputs : List (List ℚ)
  labels : List ℕ
deriving DecidableEq, Repr

/-- Membership of the true label in the top-`k` scored classes (external
torchnet semantics): fewer than `k` classes score strictly above the label's
score. -/
def inTopK (scores : List ℚ) (label : ℕ) (k : ℕ) : Bool :=
  (scores.filter (fun s => scores.getD label 0 < s)).length < k

/-- State of torchnet's `ClassErrorMeter`: the `topk` list it was constructed
with, the per-`k` counts of samples whose label missed the top-`k`, and the
number of samples added. -/
structure MeterState where
  topk : List ℕ
  wrong : List ℕ
  n : ℕ
deriving DecidableEq, Repr

/-- Per-`k` miss indicator for one sample. -/
def sampleWrong (topk : List ℕ) (scores : List ℚ) (label : ℕ) : List ℕ :=
  topk.map (fun k => if inTopK scores label k then 0 else 1)

/-- Accumulate one sample into the meter. -/
def meterAddSample (m : MeterState) (scores : List ℚ) (label : ℕ) : MeterState :=
  { m with
      wrong := (m.wrong.zip (sampleWrong m.topk scores label)).map (fun p => p.1 + p.2)
      n := m.n + 1 }

/-- `error_meter.add(outputs, label)`: accumulate every sample of a batch. -/
def meterAdd (m : MeterState) (b : Batch) : MeterState :=
  (b.outputs.zip b.labels).foldl (fun m p => meterAddSample m p.1 p.2) m

/-- Meter construction as in `Manager.eval`: `topk = [1]`, appending `5`
when the first batch's class count `outputs.size(1)` exceeds 5. -/
def meterInit (width : ℕ) : MeterState :=
  let topk : List ℕ := if 5 < width then [1, 5] else [1]
  { topk := topk, wrong := topk.map (fun _ => 0), n := 0 }

/-- `error_meter.value()`: per-`k` error percentage `100 * wrong / n`. -/
def meterValue (m : MeterState) : List ℚ :=
  m.wrong.map (fun (w : ℕ) => 100 * (w : ℚ) / (m.n : ℚ))

/-- The `for batch, label in self.test_data_loader` loop of `Manager.eval`:
the meter starts as `None` and is initialized from the first batch's output
width; a failing stream element propagates its exception immediately. -/
def evalLoop : List (Except String Batch) → Option MeterState →
    Except String (Option MeterState)
  | [], m => Except.ok m
  | Except.error e :: _, _ => Except.error e
  | Except.ok b :: rest, none => evalLoop rest (some (meterAdd (meterInit b.width) b))
  | Except.ok b :: rest, some ms => evalLoop rest (some (meterAdd ms b))

/-- `Manager.eval()`: sets the model to eval mode, runs the batch loop, then
reads `error_meter.value()` and restores train mode.  Returns the model mode
in force when control leaves the method together with the outcome.  When the
loop raised, the exception propagates with the model still in eval mode; when
the stream was empty the meter is still `None`, so `error_meter.value()`
raises an `AttributeError` (again before `self.model.train()`).  The
`cuda` flag only moves each batch to the gpu, which is invisible here. -/
def Manager.eval (cuda : Bool) (stream : List (Except String Batch)) :
    Mode × Except String (List ℚ) :=
  match evalLoop stream none with
  | Except.error e => (Mode.eval, Except.error e)
  | Except.ok none =>
      (Mode.eval, Except.error "AttributeError: NoneType object has no attribute value")
  | Except.ok (some ms) => (Mode.train, Except.ok (meterValue ms))

end RACNN

namespace RACNN

/-! ### Training loop (`Manager.train`) -/

/-- One checkpoint write performed by `self.save_model(epoch_idx,
best_accuracy, errors, savename)` inside `Manager.train`. -/
structure Checkpoint where
  epoch : ℕ
  accuracy : ℚ
  errors : List ℚ
deriving DecidableEq, Repr

/-- The loop state of `Manager.train`: the running `best_accuracy`, the
`error_history` list, and the sequence of checkpoint writes issued so far. -/
structure TrainState where
  best_accuracy : ℚ
  error_history : List (List ℚ)
  checkpoints : List Checkpoint
deriving DecidableEq, Repr

/-- One iteration of the `for i in range(epochs)` body, after
`errors = self.eval()` came back: `accuracy = 100 - errors[0]`, the errors
are appended to the history (and dumped to the json log, an external write),
and if `accuracy > best_accuracy` then `best_accuracy` is set to `accuracy`
first and `save_model` is called with the updated value. -/
def trainEpoch (errors : List ℚ) (epoch_idx : ℕ) (st : TrainState) : TrainState :=
  let accuracy : ℚ := 100 - errors.headD 0
  let st1 : TrainState := { st with error_history := st.error_history ++ [errors] }
  if st1.best_accuracy < accuracy then
    { st1 with
        best_accuracy := accuracy
        checkpoints := st1.checkpoints ++ [⟨epoch_idx, accuracy, errors⟩] }
  else st1

/-- `Manager.train(epochs, optimizer, savename, best_accuracy=0)`, abstracted
over the per-epoch evaluation outcome `evalErrors : ℕ → List ℚ` (the errors
`self.eval()` reports after epoch `e`; they depend on the external model and
data).  Epochs run as `epoch_idx = 1, …, epochs`. -/
def Manager.train (evalErrors : ℕ → List ℚ) (best_accuracy : ℚ) : ℕ → TrainState
  | 0 => ⟨best_accuracy, [], []⟩
  | n + 1 =>
      trainEpoch (evalErrors (n + 1)) (n + 1) (Manager.train evalErrors best_accuracy n)

end RACNN

namespace RACNN

/-! ### Multi-optimizer container (`Optimizers`) -/

/-- The fields of `Optimizers`: parallel lists of optimizer handles, base
learning rates and decay intervals, plus the stored args (read for
`args.lr_decay_factor`).  Handles are identities of the external optimizer
objects; their mutable learning-rate state lives in a separate heap. -/
structure Optimizers where
  optimizers : List ℕ
  lrs : List ℚ
  decay_every : List ℤ
  args : Args
deriving DecidableEq, Repr

/-- `Optimizers.__init__(args)`. -/
def Optimizers.new (args : Args) : Optimizers := ⟨[], [], [], args⟩

/-- `Optimizers.add(optimizer, learning_rate, decay_every)`: appends to the
three parallel lists. -/
def Optimizers.add (s : Optimizers) (optimizer : ℕ) (learning_rate : ℚ)
    (d : ℤ) : Optimizers :=
  { s with
      optimizers := s.optimizers ++ [optimizer]
      lrs := s.lrs ++ [learning_rate]
      decay_every := s.decay_every ++ [d] }

/-- Modelled from the spec: `utils.step_lr` lives in the repository's `utils`
module, which is absent from `src/` (only its caller
`Optimizers.update_lr` is present).  Per the spec, the scheduled rate for
epoch `e`, base rate `init_lr`, decay interval `d` and decay factor `factor`
is `init_lr * factor ^ ⌊e / d⌋` when `d > 0`, and a decay interval `d ≤ 0`
is treated as "never decay" (the constant base rate). -/
def step_lr (epoch_idx : ℕ) (init_lr : ℚ) (decay_every : ℤ) (factor : ℚ) : ℚ :=
  if decay_every ≤ 0 then init_lr
  else init_lr * factor ^ (epoch_idx / decay_every.toNat)

/-- In-place assignment of an optimizer's learning rate in the heap of
optimizer states (reference semantics: updating handle `opt` leaves every
other handle's state untouched). -/
def setLR (h : ℕ → ℚ) (opt : ℕ) (v : ℚ) : ℕ → ℚ :=
  fun x => if x = opt then v else h x

/-- The `for optimizer, init_lr, decay_every in zip(...)` loop body of
`Optimizers.update_lr`: `utils.step_lr` applies the scheduled rate to the
optimizer it was handed (modelled from the spec, which requires the new rate
to be applied to every registered optimizer) and returns the same handle,
which the loop rebinds to the local name `optimizer` and discards. -/
def updateLRLoop (epoch_idx : ℕ) (factor : ℚ) :
    List (ℕ × ℚ × ℤ) → (ℕ → ℚ) → (ℕ → ℚ)
  | [], h => h
  | (opt, init_lr, d) :: rest, h =>
      updateLRLoop epoch_idx factor rest
        (setLR h opt (step_lr epoch_idx init_lr d factor))

/-- `Optimizers.update_lr(epoch_idx)`: iterates the zip of the three parallel
lists, calling `utils.step_lr(epoch_idx, init_lr, decay_every,
self.args.lr_decay_factor, optimizer)` on each triple.  Nothing on `self`
is assigned; only the heap of optimizer states changes. -/
def Optimizers.update_lr (s : Optimizers) (heap : ℕ → ℚ) (epoch_idx : ℕ) :
    Optimizers × (ℕ → ℚ) :=
  (s, updateLRLoop epoch_idx s.args.lr_decay_factor
        (s.optimizers.zip (s.lrs.zip s.decay_every)) heap)

end RACNN

namespace RACNN

/-! ### Lemmas about the learning-rate update loop -/

theorem setLR_same (h : ℕ → ℚ) (opt : ℕ) (v : ℚ) : setLR h opt v opt = v := by
  simp [setLR]

theorem setLR_other (h : ℕ → ℚ) (opt x : ℕ) (v : ℚ) (hx : x ≠ opt) :
    setLR h opt v x = h x := by
  simp [setLR, hx]

theorem updateLRLoop_notMem (e : ℕ) (f : ℚ) :
    ∀ (l : List (ℕ × ℚ × ℤ)) (h : ℕ → ℚ) (x : ℕ),
      x ∉ l.map Prod.fst → updateLRLoop e f l h x = h x := by
  intro l
  induction l with
  | nil => intro h x _; rfl
  | cons p rest ih =>
      intro h x hx
      obtain ⟨o, lr, d⟩ := p
      simp only [List.map_cons, List.mem_cons, not_or] at hx
      simp only [updateLRLoop]
      rw [ih _ _ hx.2, setLR_other _ _ _ _ hx.1]

theorem updateLRLoop_mem (e : ℕ) (f : ℚ) :
    ∀ (l : List (ℕ × ℚ × ℤ)) (h : ℕ → ℚ) (o : ℕ) (lr : ℚ) (d : ℤ),
      (o, lr, d) ∈ l → (l.map Prod.fst).Nodup →
      updateLRLoop e f l h o = step_lr e lr d f := by
  intro l
  induction l with
  | nil => intro h o lr d hm _; exact absurd hm (List.not_mem_nil _)
  | cons p rest ih =>
      intro h o lr d hm hnd
      obtain ⟨po, plr, pd⟩ := p
      simp only [List.map_cons, List.nodup_cons] at hnd
      rcases List.mem_cons.mp hm with heq | hrest
      · cases heq
        simp only [updateLRLoop]
        rw [updateLRLoop_notMem e f rest _ o hnd.1, setLR_same]
      · simp only [updateLRLoop]
        exact ih _ o lr d hrest hnd.2

theorem zip3_getD_mem :
    ∀ (l1 : List ℕ) (l2 : List ℚ) (l3 : List ℤ) (i : ℕ),
      i < l1.length → i < l2.length → i < l3.length →
      (l1.getD i 0, l2.getD i 0, l3.getD i 0) ∈ l1.zip (l2.zip l3) := by
  intro l1
  induction l1 with
  | nil => intro l2 l3 i h1 _ _; simp at h1
  | cons a t ih =>
      intro l2 l3 i h1 h2 h3
      cases l2 with
      | nil => simp at h2
      | cons b t2 =>
          cases l3 with
          | nil => simp at h3
          | cons c t3 =>
              cases i with
              | zero => simp
              | succ j =>
                  simp only [List.getD_cons_succ, List.zip_cons_cons, List.mem_cons]
                  right
                  exact ih t2 t3 j (by simpa using h1) (by simpa using h2)
                    (by simpa using h3)

theorem update_lr_map_fst (s : Optimizers)
    (h2 : s.lrs.length = s.optimizers.length)
    (h3 : s.decay_every.length = s.optimizers.length) :
    (s.optimizers.zip (s.lrs.zip s.decay_every)).map Prod.fst = s.optimizers := by
  apply List.map_fst_zip
  rw [List.length_zip]
  omega

/-- Claim C9: `Optimizers.update_lr` leaves the registered collections
unchanged — after any call, `self.optimizers`, `self.lrs` and
`self.decay_every` are the same lists as before the call (the loop assigns
`utils.step_lr`'s return value to a loop-local name and never stores it
back on `self`). -/
theorem C9_update_lr_frame (s : Optimizers) (heap : ℕ → ℚ) (e : ℕ) :
    (s.update_lr heap e).1.optimizers = s.optimizers ∧
    (s.update_lr heap e).1.lrs = s.lrs ∧
    (s.update_lr heap e).1.decay_every = s.decay_every :=
  ⟨rfl, rfl, rfl⟩

/-- Claim C10: `Manager.load_model` mutates only the model's parameter state
and the stored args — `self.args` becomes the checkpoint's args and the
checkpoint's state dict is loaded into the model, while `self.cuda`, both
data loaders, the criterion, and the model's mode and device stay as they
were. -/
theorem C10_load_model_frame (m : ManagerState) (ckpt : Ckpt) :
    (Manager.load_model m ckpt).args = ckpt.args ∧
    (Manager.load_model m ckpt).model.params = ckpt.state_dict ∧
    (Manager.load_model m ckpt).cuda = m.cuda ∧
    (Manager.load_model m ckpt).train_data_loader = m.train_data_loader ∧
    (Manager.load_model m ckpt).test_data_loader = m.test_data_loader ∧
    (Manager.load_model m ckpt).criterion = m.criterion ∧
    (Manager.load_model m ckpt).model.mode = m.model.mode ∧
    (Manager.load_model m ckpt).model.device = m.model.device :=
  ⟨rfl, rfl, rfl, rfl, rfl, rfl, rfl, rfl⟩

/-- Claim C6: `Manager.save_model` moves the parameter state to host memory
for serialization and restores the model to its prior execution device
(gpu when cuda is enabled) before the checkpoint write happens, so the
restore executes on every exit path and a write failure surfaces only after
the device has been restored; the saved checkpoint carries the manager's
args and the model's parameter state. -/
theorem C6_save_model_device_restore (m : ManagerState) (epoch : ℕ)
    (best_accuracy : ℚ) (errors : List ℚ) (writeOk : Bool) :
    ((Manager.save_model m epoch best_accuracy errors writeOk).1.model.device
        = if m.cuda then Device.gpu else Device.cpu) ∧
    (m.model.device = (if m.cuda then Device.gpu else Device.cpu) →
      (Manager.save_model m epoch best_accuracy errors writeOk).1.model.device
        = m.model.device) ∧
    (writeOk = false →
      (Manager.save_model m epoch best_accuracy errors writeOk).2
        = Except.error "IOError") ∧
    (writeOk = true →
      (Manager.save_model m epoch best_accuracy errors writeOk).2
        = Except.ok ⟨m.args, epoch, best_accuracy, errors, m.model.params⟩) := by
  cases hcu : m.cuda <;> cases writeOk <;>
    simp [Manager.save_model, hcu] <;>
    exact fun h => h.symm

/-- A concrete manager on the gpu, used to exercise `save_model`. -/
def mgr0 : ManagerState :=
  Manager.init ⟨true, "train", "test", 32, 1/2⟩ ⟨Mode.train, Device.gpu, 7⟩

/-- Witness for C6: with cuda enabled and the model on the gpu, a failing
checkpoint write still leaves the model back on its prior device, and the
write failure is what surfaces. -/
theorem C6_save_model_device_restore_witness :
    (Manager.save_model mgr0 3 70 [30] false).1.model.device = mgr0.model.device ∧
    (Manager.save_model mgr0 3 70 [30] false).2 = Except.error "IOError" :=
  ⟨(C6_save_model_device_restore mgr0 3 70 [30] false).2.1 (by decide),
   (C6_save_model_device_restore mgr0 3 70 [30] false).2.2.1 rfl⟩

/-- Claim C2: the learning rate `Optimizers.update_lr(e)` applies to an
optimizer registered with base rate `b` and decay interval `d` is
`b * factor ^ ⌊e / d⌋` when `d > 0`, and the constant `b` (never decay)
when `d ≤ 0`. -/
theorem C2_step_decay_rate (s : Optimizers) (heap : ℕ → ℚ) (e i : ℕ)
    (hnd : s.optimizers.Nodup)
    (h2 : s.lrs.length = s.optimizers.length)
    (h3 : s.decay_every.length = s.optimizers.length)
    (hi : i < s.optimizers.length) :
    (s.update_lr heap e).2 (s.optimizers.getD i 0) =
      (if s.decay_every.getD i 0 ≤ 0 then s.lrs.getD i 0
       else s.lrs.getD i 0 *
          s.args.lr_decay_factor ^ (e / (s.decay_every.getD i 0).toNat)) := by
  have hm := zip3_getD_mem s.optimizers s.lrs s.decay_every i hi
    (by omega) (by omega)
  have hfst := update_lr_map_fst s h2 h3
  have h := updateLRLoop_mem e s.args.lr_decay_factor
    (s.optimizers.zip (s.lrs.zip s.decay_every)) heap _ _ _ hm
    (by rw [hfst]; exact hnd)
  simpa [Optimizers.update_lr, step_lr] using h

/-- Three optimizers registered as in the spec's scenario: base rates
0.1, 0.01, 0.001 with decay intervals 2, 3, 0 and decay factor 1/2. -/
def optsScen : Optimizers :=
  (((Optimizers.new ⟨true, "train", "test", 32, 1/2⟩).add 10 (1/10) 2).add
      11 (1/100) 3).add 12 (1/1000) 0

/-- Witness for C2: after `update_lr(4)` the three scenario optimizers hold
0.1*(1/2)^2 = 1/40, 0.01*(1/2)^1 = 1/200, and 0.001 (no decay for
interval 0). -/
theorem C2_step_decay_rate_witness :
    (optsScen.update_lr (fun _ => 0) 4).2 10 = 1/40 ∧
    (optsScen.update_lr (fun _ => 0) 4).2 11 = 1/200 ∧
    (optsScen.update_lr (fun _ => 0) 4).2 12 = 1/1000 := by
  have h0 := C2_step_decay_rate optsScen (fun _ => 0) 4 0
    (by decide) (by decide) (by decide) (by decide)
  have h1 := C2_step_decay_rate optsScen (fun _ => 0) 4 1
    (by decide) (by decide) (by decide) (by decide)
  have h2 := C2_step_decay_rate optsScen (fun _ => 0) 4 2
    (by decide) (by decide) (by decide) (by decide)
  refine ⟨?_, ?_, ?_⟩
  · rw [show optsScen.optimizers.getD 0 0 = 10 from rfl] at h0
    rw [h0, show (4 / (optsScen.decay_every.getD 0 0).toNat) = 2 from rfl]
    norm_num [optsScen, Optimizers.new, Optimizers.add]
  · rw [show optsScen.optimizers.getD 1 0 = 11 from rfl] at h1
    rw [h1, show (4 / (optsScen.decay_every.getD 1 0).toNat) = 1 from rfl]
    norm_num [optsScen, Optimizers.new, Optimizers.add]
  · rw [show optsScen.optimizers.getD 2 0 = 12 from rfl] at h2
    rw [h2]
    norm_num [optsScen, Optimizers.new, Optimizers.add]

/-- Claim C7: one call to `Optimizers.update_lr(e)` recomputes and applies a
rate for each registered optimizer exactly once — every registered handle
ends at the scheduled rate computed from its own base rate and decay
interval with the shared factor (optimizers whose interval has not been
reached included), and no unregistered handle is touched. -/
theorem C7_update_lr_touches_all (s : Optimizers) (heap : ℕ → ℚ) (e : ℕ)
    (hnd : s.optimizers.Nodup)
    (h2 : s.lrs.length = s.optimizers.length)
    (h3 : s.decay_every.length = s.optimizers.length) :
    (∀ i, i < s.optimizers.length →
        (s.update_lr heap e).2 (s.optimizers.getD i 0) =
          step_lr e (s.lrs.getD i 0) (s.decay_every.getD i 0)
            s.args.lr_decay_factor) ∧
    (∀ x, x ∉ s.optimizers → (s.update_lr heap e).2 x = heap x) := by
  have hfst := update_lr_map_fst s h2 h3
  constructor
  · intro i hi
    have hm := zip3_getD_mem s.optimizers s.lrs s.decay_every i hi
      (by omega) (by omega)
    exact updateLRLoop_mem e s.args.lr_decay_factor
      (s.optimizers.zip (s.lrs.zip s.decay_every)) heap _ _ _ hm
      (by rw [hfst]; exact hnd)
  · intro x hx
    exact updateLRLoop_notMem e s.args.lr_decay_factor
      (s.optimizers.zip (s.lrs.zip s.decay_every)) heap x (by rw [hfst]; exact hx)

/-- Witness for C7: on the three scenario optimizers, `update_lr(4)` sets
handle 11 to its own scheduled rate, and leaves the unregistered handle 99
at its prior value. -/
theorem C7_update_lr_touches_all_witness :
    (optsScen.update_lr (fun _ => 0) 4).2 (optsScen.optimizers.getD 1 0) =
      step_lr 4 (optsScen.lrs.getD 1 0) (optsScen.decay_every.getD 1 0)
        optsScen.args.lr_decay_factor ∧
    (optsScen.update_lr (fun _ => 0) 4).2 99 = 0 :=
  ⟨(C7_update_lr_touches_all optsScen (fun _ => 0) 4
      (by decide) (by decide) (by decide)).1 1 (by decide),
   (C7_update_lr_touches_all optsScen (fun _ => 0) 4
      (by decide) (by decide) (by decide)).2 99 (by decide)⟩

end RACNN

namespace RACNN

/-! ### Lemmas about `Manager.eval` -/

/-- Invariant of the error meter: the per-`k` counters match `topk`, and no
counter exceeds the number of samples seen. -/
def MeterInv (m : MeterState) : Prop :=
  m.wrong.length = m.topk.length ∧ ∀ w ∈ m.wrong, w ≤ m.n

theorem sampleWrong_le_one (topk : List ℕ) (scores : List ℚ) (label : ℕ) :
    ∀ x ∈ sampleWrong topk scores label, x ≤ 1 := by
  intro x hx
  obtain ⟨k, _, rfl⟩ := List.mem_map.mp hx
  split <;> omega

theorem meterAddSample_topk (m : MeterState) (scores : List ℚ) (label : ℕ) :
    (meterAddSample m scores label).topk = m.topk := rfl

theorem meterAddSample_inv (m : MeterState) (scores : List ℚ) (label : ℕ)
    (h : MeterInv m) : MeterInv (meterAddSample m scores label) := by
  obtain ⟨hlen, hle⟩ := h
  constructor
  · simp only [meterAddSample, List.length_map, List.length_zip, sampleWrong, hlen]
    omega
  · intro w hw
    simp only [meterAddSample, List.mem_map] at hw
    obtain ⟨p, hp, rfl⟩ := hw
    obtain ⟨a, b⟩ := p
    have hm := List.of_mem_zip hp
    have ha := hle a hm.1
    have hb := sampleWrong_le_one m.topk scores label b hm.2
    simp only [meterAddSample]
    omega

theorem foldlAddSample_topk (l : List (List ℚ × ℕ)) :
    ∀ m : MeterState, (l.foldl (fun m p => meterAddSample m p.1 p.2) m).topk = m.topk := by
  induction l with
  | nil => intro m; rfl
  | cons p rest ih => intro m; rw [List.foldl_cons, ih]; rfl

theorem foldlAddSample_inv (l : List (List ℚ × ℕ)) :
    ∀ m : MeterState, MeterInv m →
      MeterInv (l.foldl (fun m p => meterAddSample m p.1 p.2) m) := by
  induction l with
  | nil => intro m h; exact h
  | cons p rest ih =>
      intro m h
      rw [List.foldl_cons]
      exact ih _ (meterAddSample_inv m p.1 p.2 h)

theorem meterAdd_topk (m : MeterState) (b : Batch) : (meterAdd m b).topk = m.topk :=
  foldlAddSample_topk (b.outputs.zip b.labels) m

theorem meterAdd_inv (m : MeterState) (b : Batch) (h : MeterInv m) :
    MeterInv (meterAdd m b) :=
  foldlAddSample_inv (b.outputs.zip b.labels) m h

theorem meterInit_topk (width : ℕ) :
    (meterInit width).topk = if 5 < width then [1, 5] else [1] := rfl

theorem meterInit_inv (width : ℕ) : MeterInv (meterInit width) := by
  constructor
  · simp [meterInit]
  · intro w hw
    by_cases h5 : 5 < width <;> simp [meterInit, h5] at hw <;> omega

theorem meterValue_length (m : MeterState) :
    (meterValue m).length = m.wrong.length := by
  simp [meterValue]

theorem meterValue_bounds (m : MeterState) (h : MeterInv m) :
    ∀ v ∈ meterValue m, 0 ≤ v ∧ v ≤ 100 := by
  intro v hv
  obtain ⟨w, hw, rfl⟩ := List.mem_map.mp hv
  have hwn := h.2 w hw
  rcases Nat.eq_zero_or_pos m.n with hn | hn
  · have hw0 : w = 0 := by omega
    subst hw0
    norm_num
  · have hnq : (0 : ℚ) < m.n := by exact_mod_cast hn
    have hwq : (w : ℚ) ≤ (m.n : ℚ) := by exact_mod_cast hwn
    constructor
    · positivity
    · rw [div_le_iff₀ hnq]
      nlinarith

theorem evalLoop_ok_some (bs : List Batch) :
    ∀ ms : MeterState, MeterInv ms →
      ∃ out : MeterState,
        evalLoop (bs.map Except.ok) (some ms) = Except.ok (some out) ∧
        out.topk = ms.topk ∧ MeterInv out := by
  induction bs with
  | nil => intro ms h; exact ⟨ms, rfl, rfl, h⟩
  | cons b rest ih =>
      intro ms h
      obtain ⟨out, h1, h2, h3⟩ := ih (meterAdd ms b) (meterAdd_inv ms b h)
      refine ⟨out, ?_, ?_, h3⟩
      · rw [List.map_cons]
        exact h1
      · rw [h2, meterAdd_topk]

/-- Counterexample for C3: when a batch raises partway through evaluation
(here the first stream element fails), `Manager.eval` propagates the
exception with the model still in eval mode: the `self.model.train()` call
at the end of the method is not reached on this exit path, so training mode
is not restored. -/
theorem C3_eval_mode_counterexample :
    (Manager.eval true [Except.error "RuntimeError"]).1 ≠ Mode.train := by
  simp [Manager.eval, evalLoop]

/-- Claim C3 (amended): `Manager.eval` restores the model to training mode
exactly on its normal exit path — whenever it returns an error list the
model is back in train mode; but when evaluation fails partway (a raised
batch, or the `AttributeError` on an empty stream) control leaves with the
model still in eval mode, since the method has no scoped/guaranteed
restoration. -/
theorem C3_eval_mode_restored (cuda : Bool) (stream : List (Except String Batch)) :
    (∀ errs, (Manager.eval cuda stream).2 = Except.ok errs →
        (Manager.eval cuda stream).1 = Mode.train) ∧
    (∀ e, (Manager.eval cuda stream).2 = Except.error e →
        (Manager.eval cuda stream).1 = Mode.eval) := by
  unfold Manager.eval
  cases h : evalLoop stream none with
  | error e => simp
  | ok o => cases o <;> simp

/-- A successfully processed 8-class batch with one sample whose label is
the top-scored class. -/
def batch8 : Batch := ⟨8, [[9, 0, 0, 0, 0, 0, 0, 0]], [0]⟩

/-- Witness for the amended C3: on a stream with one good batch, evaluation
returns normally and the model is back in train mode. -/
theorem C3_eval_mode_restored_witness :
    (Manager.eval true [Except.ok batch8]).1 = Mode.train :=
  (C3_eval_mode_restored true [Except.ok batch8]).1
    (meterValue (meterAdd (meterInit 8) batch8)) rfl

/-- Claim C5: on a non-empty stream of successfully produced batches,
`Manager.eval` returns exactly two error values when the first batch's
class count exceeds 5 and exactly one when it is at most 5 — the k-value
set is fixed from the first batch's output width for the whole pass — and
every returned error value lies in [0, 100]. -/
theorem C5_eval_topk_errors (cuda : Bool) (b : Batch) (rest : List Batch) :
    ∃ errs : List ℚ,
      (Manager.eval cuda ((b :: rest).map Except.ok)).2 = Except.ok errs ∧
      errs.length = (if 5 < b.width then 2 else 1) ∧
      ∀ v ∈ errs, 0 ≤ v ∧ v ≤ 100 := by
  have hinv : MeterInv (meterAdd (meterInit b.width) b) :=
    meterAdd_inv _ _ (meterInit_inv b.width)
  obtain ⟨out, h1, h2, h3⟩ := evalLoop_ok_some rest (meterAdd (meterInit b.width) b) hinv
  refine ⟨meterValue out, ?_, ?_, meterValue_bounds out h3⟩
  · rw [List.map_cons]
    unfold Manager.eval
    rw [show evalLoop (Except.ok b :: rest.map Except.ok) none
          = evalLoop (rest.map Except.ok) (some (meterAdd (meterInit b.width) b)) from rfl]
    rw [h1]
  · rw [meterValue_length, h3.1, h2, meterAdd_topk, meterInit_topk]
    by_cases h5 : 5 < b.width <;> simp [h5]

/-- A second good 8-class batch (two samples, labels on top). -/
def batch8b : Batch :=
  ⟨8, [[7, 1, 0, 0, 0, 0, 0, 0], [0, 8, 0, 0, 0, 0, 0, 0]], [0, 1]⟩

/-- Witness for C5 at a concrete two-batch, 8-class stream: two error values
come back, both within [0, 100]. -/
theorem C5_eval_topk_errors_witness :
    ∃ errs : List ℚ,
      (Manager.eval false ([batch8, batch8b].map Except.ok)).2 = Except.ok errs ∧
      errs.length = (if 5 < batch8.width then 2 else 1) ∧
      ∀ v ∈ errs, 0 ≤ v ∧ v ≤ 100 :=
  C5_eval_topk_errors false batch8 [batch8b]

/-- Claim C8: on an empty evaluation stream the error meter is never
initialized, so `error_meter.value()` raises on the `None` meter and
`Manager.eval` does not return an error list; it returns normally only
when the stream contains at least one batch. -/
theorem C8_eval_empty_stream (cuda : Bool) :
    ((Manager.eval cuda []).2 =
        Except.error "AttributeError: NoneType object has no attribute value") ∧
    (∀ (stream : List (Except String Batch)) (errs : List ℚ),
        (Manager.eval cuda stream).2 = Except.ok errs → stream ≠ []) := by
  constructor
  · rfl
  · intro stream errs h hnil
    subst hnil
    simp [Manager.eval, evalLoop] at h

/-- Witness for C8: a one-batch stream makes `Manager.eval` return normally,
and it is indeed non-empty. -/
theorem C8_eval_empty_stream_witness :
    ([Except.ok batch8] : List (Except String Batch)) ≠ [] :=
  (C8_eval_empty_stream true).2 [Except.ok batch8]
    (meterValue (meterAdd (meterInit 8) batch8)) rfl

end RACNN

namespace RACNN

/-! ### Lemmas about `Manager.train` -/

/-- Top-1 accuracy the loop derives from epoch `e`'s eval errors:
`accuracy = 100 - errors[0]`. -/
def accOf (f : ℕ → List ℚ) (e : ℕ) : ℚ := 100 - (f e).headD 0

theorem trainEpoch_history (errors : List ℚ) (e : ℕ) (st : TrainState) :
    (trainEpoch errors e st).error_history = st.error_history ++ [errors] := by
  by_cases h : st.best_accuracy < 100 - errors.headD 0
  · simp only [trainEpoch]
    rw [if_pos h]
  · simp only [trainEpoch]
    rw [if_neg h]

theorem trainEpoch_best (errors : List ℚ) (e : ℕ) (st : TrainState) :
    (trainEpoch errors e st).best_accuracy =
      max st.best_accuracy (100 - errors.headD 0) := by
  by_cases h : st.best_accuracy < 100 - errors.headD 0
  · simp only [trainEpoch]
    rw [if_pos h]
    exact (max_eq_right (le_of_lt h)).symm
  · simp only [trainEpoch]
    rw [if_neg h]
    exact (max_eq_left (not_lt.mp h)).symm

theorem trainEpoch_checkpoints (errors : List ℚ) (e : ℕ) (st : TrainState) :
    (trainEpoch errors e st).checkpoints =
      st.checkpoints ++
        (if st.best_accuracy < 100 - errors.headD 0 then
          [⟨e, 100 - errors.headD 0, errors⟩] else []) := by
  by_cases h : st.best_accuracy < 100 - errors.headD 0
  · simp only [trainEpoch]
    rw [if_pos h, if_pos h]
  · simp only [trainEpoch]
    rw [if_neg h, if_neg h, List.append_nil]

theorem train_succ (f : ℕ → List ℚ) (b0 : ℚ) (n : ℕ) :
    Manager.train f b0 (n + 1) =
      trainEpoch (f (n + 1)) (n + 1) (Manager.train f b0 n) := rfl

theorem train_best_ge_init (f : ℕ → List ℚ) (b0 : ℚ) :
    ∀ n, b0 ≤ (Manager.train f b0 n).best_accuracy := by
  intro n
  induction n with
  | zero => exact le_refl b0
  | succ k ih =>
      rw [train_succ, trainEpoch_best]
      exact le_trans ih (le_max_left _ _)

theorem train_best_ge_acc (f : ℕ → List ℚ) (b0 : ℚ) :
    ∀ n i, 1 ≤ i → i ≤ n → accOf f i ≤ (Manager.train f b0 n).best_accuracy := by
  intro n
  induction n with
  | zero => intro i h1 h2; exact absurd (le_trans h1 h2) (by omega)
  | succ k ih =>
      intro i h1 h2
      rw [train_succ, trainEpoch_best]
      rcases Nat.lt_or_ge i (k + 1) with h | h
      · exact le_trans (ih i h1 (by omega)) (le_max_left _ _)
      · have he : i = k + 1 := by omega
        subst he
        exact le_max_right _ _

theorem train_checkpoint_spec (f : ℕ → List ℚ) (b0 : ℚ) :
    ∀ n c, c ∈ (Manager.train f b0 n).checkpoints →
      1 ≤ c.epoch ∧ c.epoch ≤ n ∧
      (Manager.train f b0 (c.epoch - 1)).best_accuracy < accOf f c.epoch ∧
      c.accuracy = accOf f c.epoch ∧ c.errors = f c.epoch := by
  intro n
  induction n with
  | zero => intro c hc; exact absurd hc (List.not_mem_nil c)
  | succ k ih =>
      intro c hc
      rw [train_succ, trainEpoch_checkpoints] at hc
      rcases List.mem_append.mp hc with h | h
      · obtain ⟨e1, e2, e3, e4, e5⟩ := ih c h
        exact ⟨e1, by omega, e3, e4, e5⟩
      · by_cases hcond :
          (Manager.train f b0 k).best_accuracy < 100 - (f (k + 1)).headD 0
        · rw [if_pos hcond] at h
          have hc1 : c = ⟨k + 1, 100 - (f (k + 1)).headD 0, f (k + 1)⟩ :=
            List.mem_singleton.mp h
          subst hc1
          refine ⟨Nat.le_add_left 1 k, le_refl _, ?_, rfl, rfl⟩
          show (Manager.train f b0 (k + 1 - 1)).best_accuracy < accOf f (k + 1)
          have hk : k + 1 - 1 = k := by omega
          rw [hk]
          exact hcond
        · rw [if_neg hcond] at h
          exact absurd h (List.not_mem_nil c)

theorem train_checkpoint_exists (f : ℕ → List ℚ) (b0 : ℚ) :
    ∀ n e, 1 ≤ e → e ≤ n →
      (Manager.train f b0 (e - 1)).best_accuracy < accOf f e →
      ∃ c ∈ (Manager.train f b0 n).checkpoints, c.epoch = e := by
  intro n
  induction n with
  | zero => intro e h1 h2 _; exact absurd (le_trans h1 h2) (by omega)
  | succ k ih =>
      intro e h1 h2 hlt
      rw [train_succ, trainEpoch_checkpoints]
      rcases Nat.lt_or_ge e (k + 1) with h | h
      · obtain ⟨c, hc, hce⟩ := ih e h1 (by omega) hlt
        exact ⟨c, List.mem_append_left _ hc, hce⟩
      · have he : e = k + 1 := by omega
        subst he
        have hk : k + 1 - 1 = k := by omega
        rw [hk] at hlt
        have hlt2 : (Manager.train f b0 k).best_accuracy
            < 100 - (f (k + 1)).headD 0 := hlt
        rw [if_pos hlt2]
        exact ⟨⟨k + 1, 100 - (f (k + 1)).headD 0, f (k + 1)⟩,
          List.mem_append_right _ (List.mem_singleton.mpr rfl), rfl⟩

/-- The spec scenario's per-epoch eval errors: top-1 errors 30, 28, 29, 25
over four epochs, giving the accuracy sequence 70, 72, 71, 75. -/
def scenarioErrors : ℕ → List ℚ :=
  fun e => [([30, 28, 29, 25].getD (e - 1) 100 : ℚ)]

theorem scenario_checkpoints :
    (Manager.train scenarioErrors 0 4).checkpoints =
      [⟨1, 70, [30]⟩, ⟨2, 72, [28]⟩, ⟨4, 75, [25]⟩] := by
  norm_num [Manager.train, trainEpoch, scenarioErrors]

/-- Claim C1: in `Manager.train`, a checkpoint is written in epoch `e` iff
that epoch's top-1 accuracy (100 minus its top-1 error) strictly exceeds
the best accuracy recorded so far (initially the `best_accuracy` argument);
when written, best-so-far is updated to the current accuracy first, so the
checkpoint carries the updated best value; and on the accuracy sequence
70, 72, 71, 75 over 4 epochs, checkpoints are written after epochs 1, 2
and 4 but not 3. -/
theorem C1_checkpoint_iff :
    (∀ (f : ℕ → List ℚ) (b0 : ℚ) (n e : ℕ), 1 ≤ e → e ≤ n →
      ((∃ c ∈ (Manager.train f b0 n).checkpoints, c.epoch = e) ↔
        (Manager.train f b0 (e - 1)).best_accuracy < accOf f e)) ∧
    (∀ (f : ℕ → List ℚ) (b0 : ℚ) (n : ℕ),
      ∀ c ∈ (Manager.train f b0 n).checkpoints,
        c.accuracy = (Manager.train f b0 c.epoch).best_accuracy) ∧
    ((Manager.train scenarioErrors 0 4).checkpoints.map Checkpoint.epoch
      = [1, 2, 4]) := by
  refine ⟨?_, ?_, ?_⟩
  · intro f b0 n e h1 h2
    constructor
    · rintro ⟨c, hc, rfl⟩
      exact (train_checkpoint_spec f b0 n c hc).2.2.1
    · exact train_checkpoint_exists f b0 n e h1 h2
  · intro f b0 n c hc
    obtain ⟨e1, _, e3, e4, _⟩ := train_checkpoint_spec f b0 n c hc
    have he : c.epoch - 1 + 1 = c.epoch := by omega
    rw [← he, train_succ, trainEpoch_best, he, e4]
    exact (max_eq_right (le_of_lt e3)).symm
  · rw [scenario_checkpoints]
    rfl

/-- Witness for C1 at the spec scenario: epoch 3 (accuracy 71, after best
72) gets no checkpoint, while epoch 2 does. -/
theorem C1_checkpoint_iff_witness :
    (¬ ∃ c ∈ (Manager.train scenarioErrors 0 4).checkpoints, c.epoch = 3) ∧
    (∃ c ∈ (Manager.train scenarioErrors 0 4).checkpoints, c.epoch = 2) := by
  constructor
  · intro hex
    have h := (C1_checkpoint_iff.1 scenarioErrors 0 4 3 (by omega) (by omega)).mp hex
    have hb : (Manager.train scenarioErrors 0 2).best_accuracy = 72 := by
      norm_num [Manager.train, trainEpoch, scenarioErrors]
    have ha : accOf scenarioErrors 3 = 71 := by
      norm_num [accOf, scenarioErrors]
    rw [hb, ha] at h
    norm_num at h
  · apply (C1_checkpoint_iff.1 scenarioErrors 0 4 2 (by omega) (by omega)).mpr
    have hb : (Manager.train scenarioErrors 0 1).best_accuracy = 70 := by
      norm_num [Manager.train, trainEpoch, scenarioErrors]
    have ha : accOf scenarioErrors 2 = 72 := by
      norm_num [accOf, scenarioErrors]
    rw [hb, ha]
    norm_num

/-- Claim C4: after every completed epoch the error history length equals
the number of epochs completed so far; the best-accuracy value is
monotonically non-decreasing across epochs; and every checkpoint carries as
its accuracy the top-1 accuracy of its own epoch, which is the maximum
top-1 accuracy observed up to the epoch at which it was written. -/
theorem C4_train_invariants :
    (∀ (f : ℕ → List ℚ) (b0 : ℚ) (n : ℕ),
        (Manager.train f b0 n).error_history.length = n) ∧
    (∀ (f : ℕ → List ℚ) (b0 : ℚ) (n : ℕ),
        (Manager.train f b0 n).best_accuracy ≤
          (Manager.train f b0 (n + 1)).best_accuracy) ∧
    (∀ (f : ℕ → List ℚ) (b0 : ℚ) (n : ℕ),
        ∀ c ∈ (Manager.train f b0 n).checkpoints,
          c.accuracy = accOf f c.epoch ∧
          ∀ i, 1 ≤ i → i ≤ c.epoch → accOf f i ≤ c.accuracy) := by
  refine ⟨?_, ?_, ?_⟩
  · intro f b0 n
    induction n with
    | zero => rfl
    | succ k ih =>
        rw [train_succ, trainEpoch_history, List.length_append, ih]
        rfl
  · intro f b0 n
    rw [train_succ, trainEpoch_best]
    exact le_max_left _ _
  · intro f b0 n c hc
    obtain ⟨e1, _, e3, e4, _⟩ := train_checkpoint_spec f b0 n c hc
    refine ⟨e4, ?_⟩
    intro i hi1 hi2
    rcases Nat.lt_or_ge i c.epoch with h | h
    · have hle := train_best_ge_acc f b0 (c.epoch - 1) i hi1 (by omega)
      rw [e4]
      exact le_of_lt (lt_of_le_of_lt hle e3)
    · have he : i = c.epoch := by omega
      subst he
      rw [e4]

/-- Witness for C4 at the spec scenario: four epochs leave a history of
length 4, and the epoch-2 checkpoint's stored accuracy dominates epoch 1's
accuracy. -/
theorem C4_train_invariants_witness :
    (Manager.train scenarioErrors 0 4).error_history.length = 4 ∧
    accOf scenarioErrors 1 ≤ (Checkpoint.mk 2 72 [28]).accuracy :=
  ⟨C4_train_invariants.1 scenarioErrors 0 4,
   (C4_train_invariants.2.2 scenarioErrors 0 4 ⟨2, 72, [28]⟩
      (by rw [scenario_checkpoints]; simp)).2 1 (by decide) (by decide)⟩

end RACNN
